import Mathlib

/-!
Verification development for the `valedate` harness (src/valedate/harness.py).

The Python module is embedded shallowly: parsed JSON values become an
inductive `Json` type, the msgspec-based alert decoding becomes explicit
`Except` computations, the pure text transformations (`_force_styles_path`,
`_render_mapping_ini`) become Lean string functions, and the effectful
constructor / cleanup / process code becomes explicit state passing over
small state records with event traces.

Modelling conventions, stated once:
* JSON numbers are modelled as integers (`Int`); the fields the harness
  decodes (`Line`, `Span`) are integral in Vale's output, and no claim
  involves floating point.
* `Json.obj` models a Python `dict` produced by `msgspec.json.decode`, so
  its field list stands for an insertion-ordered mapping with unique keys;
  lookups take the first occurrence.
* Byte-level text decoding (`bytes.decode("utf-8", "replace")`) is total in
  Python (it never raises); process results are therefore modelled directly
  with their decoded text fields.
-/

namespace Valedate

/-- A parsed JSON value, as returned by `msgspec.json.decode`.  Numbers are
modelled as integers (see module header). -/
inductive Json where
  | null
  | bool (b : Bool)
  | num (n : Int)
  | str (s : String)
  | arr (elems : List Json)
  | obj (fields : List (String × Json))

/-- Structured representation of Vale's optional Action payload
(`ValeAction` in harness.py, lines 107-122): `Name` and `Params`, both
optional and defaulting to `None`. -/
structure ValeAction where
  name : Option String
  params : Option (List String)
deriving DecidableEq

/-- Structured representation of Vale's `core.Alert` payload
(`ValeDiagnostic` in harness.py, lines 125-161).  The Python field `match`
is a Lean keyword and is rendered here as `matchText`. -/
structure ValeDiagnostic where
  check : String
  message : String
  severity : String
  line : Option Int
  span : Int × Int
  link : Option String
  description : Option String
  matchText : Option String
  action : Option ValeAction
deriving DecidableEq

/-- The ways decoding Vale's JSON can fail.  `missingField`/`badType` model
msgspec validation errors, `keyError` models the Python `KeyError` raised by
`file_obj["Path"]` / `file_obj["Alerts"]`, and `notAnObject`/`notAnArray`
model msgspec conversion failures on structurally wrong values. -/
inductive DecodeError where
  | missingField (field : String)
  | badType (field : String)
  | keyError (key : String)
  | notAnObject
  | notAnArray
deriving DecidableEq

/-- Whether an `Except` computation succeeded (Python: no exception). -/
def exceptIsOk : Except ε α → Bool
  | Except.ok _ => true
  | Except.error _ => false

instance instDecEqExcept {ε α : Type} [DecidableEq ε] [DecidableEq α] :
    DecidableEq (Except ε α) := fun x y =>
  match x, y with
  | Except.ok a, Except.ok b =>
      if h : a = b then Decidable.isTrue (by rw [h])
      else Decidable.isFalse (fun hc => by cases hc; exact h rfl)
  | Except.error a, Except.error b =>
      if h : a = b then Decidable.isTrue (by rw [h])
      else Decidable.isFalse (fun hc => by cases hc; exact h rfl)
  | Except.ok _, Except.error _ => Decidable.isFalse (fun hc => by cases hc)
  | Except.error _, Except.ok _ => Decidable.isFalse (fun hc => by cases hc)

/-- Python `str()` applied to a decoded JSON value, used by
`_decode_vale_json` for `str(path)`.  Scalars are rendered exactly;
composite values (which never occur as Vale path values, and whose rendering
no theorem below depends on) are given placeholder renderings. -/
def pythonStr : Json → String
  | Json.str s => s
  | Json.num n => toString n
  | Json.bool true => "True"
  | Json.bool false => "False"
  | Json.null => "None"
  | Json.arr _ => "<list>"
  | Json.obj _ => "<dict>"

/-- A required `str` field of a msgspec struct: absent fields are a decode
error, present non-string values are a validation error (msgspec converts
strictly). -/
def reqStrField (fs : List (String × Json)) (key : String) : Except DecodeError String :=
  match fs.lookup key with
  | none => Except.error (DecodeError.missingField key)
  | some (Json.str s) => Except.ok s
  | some _ => Except.error (DecodeError.badType key)

/-- An optional `int | None` field with default `None` (the `Line` field). -/
def optIntField (fs : List (String × Json)) (key : String) : Except DecodeError (Option Int) :=
  match fs.lookup key with
  | none => Except.ok none
  | some Json.null => Except.ok none
  | some (Json.num n) => Except.ok (some n)
  | some _ => Except.error (DecodeError.badType key)

/-- The `Span` field: `tuple[int, int]` with default `(0, 0)`; a present
value must be a two-element array of integers. -/
def spanField (fs : List (String × Json)) : Except DecodeError (Int × Int) :=
  match fs.lookup "Span" with
  | none => Except.ok (0, 0)
  | some (Json.arr [Json.num a, Json.num b]) => Except.ok (a, b)
  | some _ => Except.error (DecodeError.badType "Span")

/-- An optional `str | None` field with default `None`
(`Link`, `Description`, `Match`, and the action's `Name`). -/
def optStrField (fs : List (String × Json)) (key : String) : Except DecodeError (Option String) :=
  match fs.lookup key with
  | none => Except.ok none
  | some Json.null => Except.ok none
  | some (Json.str s) => Except.ok (some s)
  | some _ => Except.error (DecodeError.badType key)

/-- Convert a list of JSON values to `list[str]` (the action's `Params`). -/
def strList : List Json → Except DecodeError (List String)
  | [] => Except.ok []
  | Json.str s :: rest => (strList rest).map (fun t => s :: t)
  | _ :: _ => Except.error (DecodeError.badType "Params")

/-- The action's optional `list[str] | None` field with default `None`. -/
def optParamsField (afs : List (String × Json)) : Except DecodeError (Option (List String)) :=
  match afs.lookup "Params" with
  | none => Except.ok none
  | some Json.null => Except.ok none
  | some (Json.arr xs) => (strList xs).map some
  | some _ => Except.error (DecodeError.badType "Params")

/-- The `Action` field: `ValeAction | None` with default `None`; a present
non-null value must convert to a `ValeAction` struct. -/
def decodeActionField (fs : List (String × Json)) : Except DecodeError (Option ValeAction) :=
  match fs.lookup "Action" with
  | none => Except.ok none
  | some Json.null => Except.ok none
  | some (Json.obj afs) => do
      let n ← optStrField afs "Name"
      let p ← optParamsField afs
      Except.ok (some { name := n, params := p })
  | some _ => Except.error (DecodeError.badType "Action")

/-- Decoding one alert object into a `ValeDiagnostic`, following the msgspec
struct declaration in harness.py lines 125-161: `Check`, `Message`,
`Severity` required; `Line`, `Span`, `Link`, `Description`, `Match`,
`Action` optional with the stated defaults. -/
def decode_alert (fs : List (String × Json)) : Except DecodeError ValeDiagnostic := do
  let check ← reqStrField fs "Check"
  let message ← reqStrField fs "Message"
  let severity ← reqStrField fs "Severity"
  let line ← optIntField fs "Line"
  let span ← spanField fs
  let link ← optStrField fs "Link"
  let description ← optStrField fs "Description"
  let matchText ← optStrField fs "Match"
  let action ← decodeActionField fs
  Except.ok { check, message, severity, line, span, link, description, matchText, action }

/-- Decoding one JSON value as an alert: it must be an object. -/
def decodeAlertJson : Json → Except DecodeError ValeDiagnostic
  | Json.obj fs => decode_alert fs
  | _ => Except.error DecodeError.notAnObject

/-- Element-wise decoding of a JSON list into `list[ValeDiagnostic]`;
the first failing element fails the whole conversion (msgspec semantics,
nothing is dropped). -/
def decodeAlertList : List Json → Except DecodeError (List ValeDiagnostic)
  | [] => Except.ok []
  | e :: rest => do
      let d ← decodeAlertJson e
      let ds ← decodeAlertList rest
      Except.ok (d :: ds)

/-- `_to_alerts(seq)` (harness.py lines 286-287): `msgspec.convert(seq,
type=list[ValeDiagnostic])`; the value must be an array of alert objects. -/
def to_alerts : Json → Except DecodeError (List ValeDiagnostic)
  | Json.arr es => decodeAlertList es
  | _ => Except.error DecodeError.notAnArray

/-- Whether an object field list has a key (Python: `"k" in set(obj)`). -/
def hasKey (fs : List (String × Json)) (k : String) : Bool :=
  fs.any (fun p => p.1 == k)

/-- The structural guard of the per-file match arm in `_decode_vale_json`
(line 292): the element is a dict containing both `"Path"` and `"Alerts"`. -/
def isPerFileHead : Json → Bool
  | Json.obj fs => hasKey fs "Path" && hasKey fs "Alerts"
  | _ => false

/-- Python dict assignment `output[path] = v`: replace the value at an
existing key (keeping its position), otherwise append a new entry. -/
def dictInsert (m : List (String × List ValeDiagnostic)) (k : String)
    (v : List ValeDiagnostic) : List (String × List ValeDiagnostic) :=
  if m.any (fun p => p.1 == k) then
    m.map (fun p => if p.1 == k then (k, v) else p)
  else m ++ [(k, v)]

/-- One iteration of the per-file loop body (lines 294-296):
`path = str(file_obj["Path"]); output[path] = _to_alerts(file_obj["Alerts"])`.
A non-dict element or a missing key raises (TypeError / KeyError). -/
def decodeFileObj : Json → Except DecodeError (String × List ValeDiagnostic)
  | Json.obj fs =>
      match fs.lookup "Path" with
      | none => Except.error (DecodeError.keyError "Path")
      | some p =>
          match fs.lookup "Alerts" with
          | none => Except.error (DecodeError.keyError "Alerts")
          | some a => (to_alerts a).map (fun ds => (pythonStr p, ds))
  | _ => Except.error DecodeError.notAnObject

/-- The per-file decoding loop (lines 293-297), threading the accumulated
`output` dict through each iteration. -/
def perFileGo (acc : List (String × List ValeDiagnostic)) :
    List Json → Except DecodeError (List (String × List ValeDiagnostic))
  | [] => Except.ok acc
  | fo :: rest => do
      let pd ← decodeFileObj fo
      perFileGo (dictInsert acc pd.1 pd.2) rest

/-- The dict-shaped arm (line 291): `{str(path): _to_alerts(alerts) for
path, alerts in value.items()}`; keys of a parsed JSON object are already
strings so `str(path)` is the identity. -/
def dictDecode : List (String × Json) → Except DecodeError (List (String × List ValeDiagnostic))
  | [] => Except.ok []
  | (k, v) :: rest => do
      let ds ← to_alerts v
      let tail ← dictDecode rest
      Except.ok ((k, ds) :: tail)

/-- The bare-list arm (line 299): `{"<stdin>": _to_alerts(value)}`. -/
def stdinDecode (l : List Json) : Except DecodeError (List (String × List ValeDiagnostic)) :=
  (decodeAlertList l).map (fun ds => [("<stdin>", ds)])

/-- `_decode_vale_json` (harness.py lines 283-301).  Shape dispatch mirrors
the Python `match`: a dict is decoded per path key; a non-empty list whose
first element is a dict containing both `"Path"` and `"Alerts"` is decoded
per file; any other list is decoded as a bare alert array under `"<stdin>"`;
every other value yields an empty mapping. -/
def decode_vale_json : Json → Except DecodeError (List (String × List ValeDiagnostic))
  | Json.obj fields => dictDecode fields
  | Json.arr (first :: rest) =>
      if isPerFileHead first then perFileGo [] (first :: rest)
      else stdinDecode (first :: rest)
  | Json.arr [] => stdinDecode []
  | _ => Except.ok []

/-- Whether a parsed JSON value is neither an object nor an array, i.e.
falls through to the `case _` arm of `_decode_vale_json`. -/
def isScalarJson : Json → Bool
  | Json.obj _ => false
  | Json.arr _ => false
  | _ => true

/-- The collapse step of `Valedate.lint` (line 459):
`next(iter(by_file.values()), [])` takes the first entry's diagnostics, or
the empty list when the mapping is empty. -/
def lintCollapse : List (String × List ValeDiagnostic) → List ValeDiagnostic
  | [] => []
  | (_, ds) :: _ => ds

/-- The decode-and-collapse tail of `Valedate.lint` (lines 457-459), as a
function of the process output. -/
def lintFromOutput (out : Json) : Except DecodeError (List ValeDiagnostic) :=
  (decode_vale_json out).map lintCollapse

/-- The decode tail of `Valedate.lint_path` (line 492): the full path-keyed
mapping is returned unchanged. -/
def lintPathFromOutput (out : Json) : Except DecodeError (List (String × List ValeDiagnostic)) :=
  decode_vale_json out

/-- Well-typedness of a present required `str` field value. -/
def okReqStr : Option Json → Bool
  | none => true
  | some (Json.str _) => true
  | some _ => false

/-- Well-typedness of a present `int | None` field value. -/
def okOptInt : Option Json → Bool
  | none => true
  | some Json.null => true
  | some (Json.num _) => true
  | some _ => false

/-- Well-typedness of a present `Span` field value. -/
def okSpan : Option Json → Bool
  | none => true
  | some (Json.arr [Json.num _, Json.num _]) => true
  | some _ => false

/-- Well-typedness of a present `str | None` field value. -/
def okOptStr : Option Json → Bool
  | none => true
  | some Json.null => true
  | some (Json.str _) => true
  | some _ => false

/-- Whether a JSON value is a string. -/
def isStrJson : Json → Bool
  | Json.str _ => true
  | _ => false

/-- Well-typedness of a present `Params` field value. -/
def okParams : Option Json → Bool
  | none => true
  | some Json.null => true
  | some (Json.arr xs) => xs.all isStrJson
  | some _ => false

/-- Well-typedness of a present `Action` field value. -/
def okActionVal : Option Json → Bool
  | none => true
  | some Json.null => true
  | some (Json.obj afs) => okOptStr (afs.lookup "Name") && okParams (afs.lookup "Params")
  | some _ => false

/-- An alert object whose present fields all carry values of their declared
msgspec types (it may still be missing required fields). -/
def wellTypedAlert (fs : List (String × Json)) : Bool :=
  okReqStr (fs.lookup "Check") && okReqStr (fs.lookup "Message") &&
  okReqStr (fs.lookup "Severity") && okOptInt (fs.lookup "Line") &&
  okSpan (fs.lookup "Span") && okOptStr (fs.lookup "Link") &&
  okOptStr (fs.lookup "Description") && okOptStr (fs.lookup "Match") &&
  okActionVal (fs.lookup "Action")

/-- Whether the three msgspec-required alert fields are all present. -/
def requiredFieldsPresent (fs : List (String × Json)) : Bool :=
  (fs.lookup "Check").isSome && (fs.lookup "Message").isSome &&
  (fs.lookup "Severity").isSome

/-- A character matched by Python's regex class handled within a single
line (space, tab, carriage return, vertical tab, form feed; the newline
case never occurs inside a line produced by splitting on newlines). -/
def isPyLineSpace (c : Char) : Bool :=
  c = ' ' || c = '\t' || c = '\x0d' || c = '\x0b' || c = '\x0c'

/-- Split a character list on newline characters; always returns at least
one (possibly empty) line, like `str.split("\n")`. -/
def splitLinesChars : List Char → List (List Char)
  | [] => [[]]
  | c :: rest =>
      if c = '\n' then [] :: splitLinesChars rest
      else
        match splitLinesChars rest with
        | [] => [[c]]
        | l :: ls => (c :: l) :: ls

/-- Split a string into its lines (the line decomposition that the
multiline anchors of Python's `(?m)^...$` regex operate on). -/
def splitLines (s : String) : List String :=
  (splitLinesChars s.toList).map (fun cs => String.mk cs)

/-- Join strings with a separator, like Python's `sep.join(...)`. -/
def joinWith (sep : String) : List String → String
  | [] => ""
  | [l] => l
  | l :: rest => l ++ sep ++ joinWith sep rest

/-- Whether one line matches the pattern of harness.py line 247,
`^\s*StylesPath\s*=.*$`: optional whitespace, the exact (case-sensitive)
token `StylesPath`, optional whitespace, `=`, then anything. -/
def stylesPathLineMatches (line : String) : Bool :=
  let t := line.toList.dropWhile isPyLineSpace
  "StylesPath".toList.isPrefixOf t &&
    ((t.drop 10).dropWhile isPyLineSpace).take 1 == ['=']

/-- Lower-case an ASCII letter, leaving every other character unchanged. -/
def asciiLower (c : Char) : Char :=
  if 'A' ≤ c ∧ c ≤ 'Z' then Char.ofNat (c.toNat + 32) else c

/-- Modelled from the spec wording of the claim, for comparison with the
code: a case-insensitive styles-path line match, recognising the directive
token in any letter case. -/
def stylesPathLineMatchesCI (line : String) : Bool :=
  let t := (line.toList.map asciiLower).dropWhile isPyLineSpace
  "stylespath".toList.isPrefixOf t &&
    ((t.drop 10).dropWhile isPyLineSpace).take 1 == ['=']

/-- The line-level body of `_force_styles_path` (harness.py lines 246-250):
if any line matches the (case-sensitive) styles-path pattern, every
matching line is replaced in place by the forced directive (the effect of
`re.sub` with `(?m)^...$`); otherwise the forced directive is prepended as
a new first line. -/
def forceStylesPathLines (lines : List String) (stylesDirname : String) : List String :=
  let directive := "StylesPath = " ++ stylesDirname
  if lines.any stylesPathLineMatches then
    lines.map (fun l => if stylesPathLineMatches l then directive else l)
  else directive :: lines

/-- `_force_styles_path(ini_text, styles_dirname)` (harness.py lines
246-250).  The multiline regex acts line by line, so the function is the
line-level transform above, rejoined with newlines; in the prepend branch
this rejoining agrees with the source's
`f"StylesPath = {styles_dirname}\n{ini_text}"` because splitting on
newlines and rejoining is the identity. -/
def force_styles_path (iniText : String) (stylesDirname : String) : String :=
  joinWith "\n" (forceStylesPathLines (splitLines iniText) stylesDirname)

/-- One rendered value of a `.vale.ini` key: either the `str()` rendering
of a non-sequence Python value, or the element-wise `str()` renderings of a
list/tuple value, which `_emit_section` joins with `", "`. -/
inductive IniValue where
  | prim (rendered : String)
  | seq (items : List String)
deriving DecidableEq

/-- The body attached to a pseudo-section name in a mapping-form ini: a
key/value mapping, or any non-mapping value (which is an error for ordinary
sections and is silently ignored for the root). -/
inductive IniBody where
  | table (pairs : List (String × IniValue))
  | nonMapping
deriving DecidableEq

/-- Failure of `_render_mapping_ini`: `InvalidIniSectionError(section)`. -/
inductive RenderError where
  | invalidIniSection (sectionName : String)
deriving DecidableEq

/-- Render one value as `_emit_section` does: sequences joined with `", "`,
everything else via `str()`. -/
def renderIniValue : IniValue → String
  | IniValue.prim s => s
  | IniValue.seq items => joinWith ", " items

/-- `_emit_section` (harness.py lines 198-206): render a key/value mapping
into `key = value` lines, in order. -/
def emit_section (pairs : List (String × IniValue)) : List String :=
  pairs.map (fun kv => kv.1 ++ " = " ++ renderIniValue kv.2)

/-- The root block of `_render_mapping_ini` (lines 213-216): the body found
under `"__root__"`, else under `"top"`, else empty, is emitted unsectioned;
a non-mapping root falls through the single-case `match` silently. -/
def rootLines (mapping : List (String × IniBody)) : List String :=
  let root :=
    match mapping.lookup "__root__" with
    | some b => b
    | none =>
        match mapping.lookup "top" with
        | some b => b
        | none => IniBody.table []
  match root with
  | IniBody.table pairs => emit_section pairs
  | IniBody.nonMapping => []

/-- The section loop of `_render_mapping_ini` (lines 218-228): every entry
other than the two root aliases contributes a blank line, a bracketed
header (auto-bracketed unless already starting with `[`), and its key/value
lines; a non-mapping body raises `InvalidIniSectionError`. -/
def renderSections : List (String × IniBody) → Except RenderError (List String)
  | [] => Except.ok []
  | (name, body) :: rest =>
      if name == "__root__" || name == "top" then renderSections rest
      else
        let header := if name.toList.take 1 == ['['] then name else "[" ++ name ++ "]"
        match body with
        | IniBody.table pairs => do
            let tail ← renderSections rest
            Except.ok (("" :: header :: emit_section pairs) ++ tail)
        | IniBody.nonMapping => Except.error (RenderError.invalidIniSection name)

/-- Python `str.strip()` restricted to ASCII whitespace: drop whitespace
from both ends. -/
def pyStrip (s : String) : String :=
  let ws := fun c => isPyLineSpace c || c = '\n'
  String.mk (((s.toList.dropWhile ws).reverse.dropWhile ws).reverse)

/-- `_render_mapping_ini` (harness.py lines 209-230): root block first,
then the bracketed sections, joined with newlines, stripped, plus a final
newline. -/
def render_mapping_ini (mapping : List (String × IniBody)) : Except RenderError String := do
  let secLines ← renderSections mapping
  Except.ok (pyStrip (joinWith "\n" (rootLines mapping ++ secLines)) ++ "\n")

/-- The environment a harness construction runs in: which fallible steps
succeed, and the inputs that steer control flow.  Each flag models the
success of one source-visible step of `Valedate.__init__`
(harness.py lines 368-395). -/
structure InitEnv where
  binaryFound : Bool
  stdinFlagSupported : Bool
  stylesOk : Bool
  iniOk : Bool
  writeOk : Bool
  autoSync : Bool
  iniHasPackages : Bool
  syncOk : Bool
deriving DecidableEq

/-- The observable steps of `Valedate.__init__`, in source order:
`tempfile.TemporaryDirectory` (line 369), `_which_vale` (line 374), the
stdin-flag probe (line 375), `styles_dir.mkdir` (line 380),
`_populate_styles` (line 381), `_as_ini_text`/`_force_styles_path`
(line 383), `write_text` (line 385), `self._run(["sync"])` (line 388),
the `ExitStack` unwinding removing the directory, and `pop_all()`
transferring ownership (line 395). -/
inductive InitEvent where
  | createTmpDir
  | resolveBinary
  | probeStdinFlag
  | mkStylesDir
  | populateStyles
  | normalizeConfig
  | writeConfig
  | runSync
  | removeTmpDir
  | transferOwnership
deriving DecidableEq

/-- The errors a harness construction can propagate. -/
inductive InitError where
  | valeBinaryNotFound
  | stylesError
  | configError
  | writeError
  | syncError
deriving DecidableEq

/-- The result of a harness construction: the propagated outcome, the
ordered trace of steps that ran, whether the sandbox directory still exists
afterwards, and whether the harness instance owns the temporary
directory. -/
structure InitOutcome where
  result : Except InitError Unit
  events : List InitEvent
  sandboxDirExists : Bool
  harnessOwnsTmp : Bool
deriving DecidableEq

/-- A failing construction: the `ExitStack` unwinds, removing the already
created temporary directory before the error propagates, and no ownership
transfer happens. -/
def failInit (e : InitError) (evs : List InitEvent) : InitOutcome :=
  { result := Except.error e
    events := evs ++ [InitEvent.removeTmpDir]
    sandboxDirExists := false
    harnessOwnsTmp := false }

/-- A successful construction: `pop_all()` transfers ownership of the
still-existing directory to the harness instance. -/
def succeedInit (evs : List InitEvent) : InitOutcome :=
  { result := Except.ok ()
    events := evs ++ [InitEvent.transferOwnership]
    sandboxDirExists := true
    harnessOwnsTmp := true }

/-- `Valedate.__init__` (harness.py lines 368-395) as a step sequence.  The
temporary directory is created and registered with the `ExitStack` first
(lines 369-370); only then is the binary resolved (line 374); the probe,
styles population, config normalization and write, and the optional
`vale sync` follow in source order; any failure unwinds the stack. -/
def valedateInit (env : InitEnv) : InitOutcome :=
  let evs := [InitEvent.createTmpDir, InitEvent.resolveBinary]
  if env.binaryFound = false then failInit InitError.valeBinaryNotFound evs
  else
    let evs := evs ++ [InitEvent.probeStdinFlag, InitEvent.mkStylesDir, InitEvent.populateStyles]
    if env.stylesOk = false then failInit InitError.stylesError evs
    else
      let evs := evs ++ [InitEvent.normalizeConfig]
      if env.iniOk = false then failInit InitError.configError evs
      else
        let evs := evs ++ [InitEvent.writeConfig]
        if env.writeOk = false then failInit InitError.writeError evs
        else if env.autoSync && env.iniHasPackages then
          let evs := evs ++ [InitEvent.runSync]
          if env.syncOk = false then failInit InitError.syncError evs
          else succeedInit evs
        else succeedInit evs

/-- `_VALE_RUNTIME_FAILURE_EXIT` (harness.py line 34). -/
def VALE_RUNTIME_FAILURE_EXIT : Int := 2

/-- A completed `subprocess.run` result as `Valedate._run` observes it:
the exit status and the best-effort decoded (`errors="replace"`, hence
total and never raising) stdout and stderr text. -/
structure ProcResult where
  returncode : Int
  stdoutText : String
  stderrText : String
deriving DecidableEq

/-- `ValeExecutionError(exit_code, stderr)` (harness.py lines 69-85). -/
inductive RunError where
  | valeExecutionError (exit_code : Int) (stderr : String)
deriving DecidableEq

/-- The outcome logic of `Valedate._run` (harness.py lines 521-524): exit
status at or above the runtime-failure threshold raises
`ValeExecutionError` with the status and decoded stderr; anything below it
returns the decoded stdout. -/
def valedate_run (proc : ProcResult) : Except RunError String :=
  if proc.returncode ≥ VALE_RUNTIME_FAILURE_EXIT then
    Except.error (RunError.valeExecutionError proc.returncode proc.stderrText)
  else Except.ok proc.stdoutText

/-- The state of a `tempfile.TemporaryDirectory`: whether its finalizer is
still attached and whether the directory tree exists on disk. -/
structure TmpDirState where
  finalizerAlive : Bool
  dirExists : Bool
deriving DecidableEq

/-- Models CPython's `tempfile.TemporaryDirectory.cleanup`: remove the tree
if the finalizer detaches (first call) or the directory still exists,
otherwise do nothing; in both cases it returns normally.  The second
component reports whether the tree removal ran. -/
def tmpdir_cleanup (s : TmpDirState) : TmpDirState × Bool :=
  if s.finalizerAlive || s.dirExists then
    ({ finalizerAlive := false, dirExists := false }, true)
  else (s, false)

/-- `Valedate.cleanup` (harness.py lines 507-509): delegates to the owned
temporary directory's cleanup. -/
def harness_cleanup (s : TmpDirState) : TmpDirState × Bool :=
  tmpdir_cleanup s

/-- `Valedate.__exit__` (harness.py lines 498-505): always calls
`self.cleanup()`. -/
def harness_exit (s : TmpDirState) : TmpDirState × Bool :=
  harness_cleanup s

/-- A construction environment whose binary lookup fails and every other
step would succeed. -/
def envNoBinary : InitEnv :=
  ⟨false, true, true, true, true, false, false, true⟩

/-- A second binary-lookup-failure environment (auto-sync requested). -/
def envNoBinarySync : InitEnv :=
  ⟨false, false, true, true, true, true, true, true⟩

/-- A construction environment whose styles materialization fails. -/
def envStylesFail : InitEnv :=
  ⟨true, true, false, true, true, false, false, true⟩

/-- A construction environment in which every step succeeds. -/
def envAllOk : InitEnv :=
  ⟨true, true, true, true, true, false, false, true⟩

/-- The temporary-directory state right after a successful construction:
finalizer attached, directory on disk. -/
def freshHarnessTmp : TmpDirState :=
  { finalizerAlive := true, dirExists := true }

end Valedate

namespace Valedate

theorem exceptBind_ok (a : α) (f : α → Except ε β) :
    (Except.ok a : Except ε α) >>= f = f a := rfl

theorem exceptBind_error (e : ε) (f : α → Except ε β) :
    (Except.error e : Except ε α) >>= f = Except.error e := rfl

theorem hasKey_eq_lookup_isSome (fs : List (String × Json)) (k : String) :
    hasKey fs k = (fs.lookup k).isSome := by
  induction fs with
  | nil => rfl
  | cons p rest ih =>
      obtain ⟨a, v⟩ := p
      by_cases h : a = k
      · subst h
        simp [hasKey, List.lookup]
      · have h1 : (a == k) = false := beq_false_of_ne h
        have h2 : (k == a) = false := beq_false_of_ne (Ne.symm h)
        simp only [hasKey, List.any_cons, List.lookup, h1, h2, Bool.false_or]
        exact ih

theorem okReqStr_some {j : Json} (h : okReqStr (some j) = true) :
    ∃ s, j = Json.str s := by
  cases j <;> simp [okReqStr] at h ⊢

theorem optIntField_spec (fs : List (String × Json)) (k : String)
    (h : okOptInt (fs.lookup k) = true) :
    ∃ v, optIntField fs k = Except.ok v ∧ (fs.lookup k = none → v = none) := by
  cases hk : fs.lookup k with
  | none => exact ⟨none, by simp [optIntField, hk], fun _ => rfl⟩
  | some j =>
      rw [hk] at h
      cases j with
      | null =>
          refine ⟨none, by simp [optIntField, hk], fun hc => ?_⟩
          simp at hc
      | num n =>
          refine ⟨some n, by simp [optIntField, hk], fun hc => ?_⟩
          simp at hc
      | bool b => simp [okOptInt] at h
      | str s => simp [okOptInt] at h
      | arr es => simp [okOptInt] at h
      | obj ofs => simp [okOptInt] at h

theorem spanField_spec (fs : List (String × Json))
    (h : okSpan (fs.lookup "Span") = true) :
    ∃ v, spanField fs = Except.ok v ∧ (fs.lookup "Span" = none → v = (0, 0)) := by
  cases hk : fs.lookup "Span" with
  | none => exact ⟨(0, 0), by simp [spanField, hk], fun _ => rfl⟩
  | some j =>
      rw [hk] at h
      cases j with
      | arr es =>
          match es, h with
          | [Json.num a, Json.num b], _ =>
              refine ⟨(a, b), by simp [spanField, hk], fun hc => ?_⟩
              simp at hc
      | null => simp [okSpan] at h
      | num n => simp [okSpan] at h
      | bool b => simp [okSpan] at h
      | str s => simp [okSpan] at h
      | obj ofs => simp [okSpan] at h

theorem optStrField_spec (fs : List (String × Json)) (k : String)
    (h : okOptStr (fs.lookup k) = true) :
    ∃ v, optStrField fs k = Except.ok v ∧ (fs.lookup k = none → v = none) := by
  cases hk : fs.lookup k with
  | none => exact ⟨none, by simp [optStrField, hk], fun _ => rfl⟩
  | some j =>
      rw [hk] at h
      cases j with
      | null =>
          refine ⟨none, by simp [optStrField, hk], fun hc => ?_⟩
          simp at hc
      | str s =>
          refine ⟨some s, by simp [optStrField, hk], fun hc => ?_⟩
          simp at hc
      | num n => simp [okOptStr] at h
      | bool b => simp [okOptStr] at h
      | arr es => simp [okOptStr] at h
      | obj ofs => simp [okOptStr] at h

theorem strList_spec (xs : List Json) (h : xs.all isStrJson = true) :
    ∃ l, strList xs = Except.ok l := by
  induction xs with
  | nil => exact ⟨[], rfl⟩
  | cons x rest ih =>
      simp only [List.all_cons, Bool.and_eq_true] at h
      obtain ⟨hx, hrest⟩ := h
      obtain ⟨l, hl⟩ := ih hrest
      cases x <;> simp [isStrJson] at hx
      case str s => exact ⟨s :: l, by simp [strList, hl, Except.map]⟩

theorem optParamsField_spec (afs : List (String × Json))
    (h : okParams (afs.lookup "Params") = true) :
    ∃ v, optParamsField afs = Except.ok v := by
  cases hk : afs.lookup "Params" with
  | none => exact ⟨none, by simp [optParamsField, hk]⟩
  | some j =>
      rw [hk] at h
      cases j with
      | null => exact ⟨none, by simp [optParamsField, hk]⟩
      | arr xs =>
          obtain ⟨l, hl⟩ := strList_spec xs (by simpa [okParams] using h)
          exact ⟨some l, by simp [optParamsField, hk, hl, Except.map]⟩
      | num n => simp [okParams] at h
      | bool b => simp [okParams] at h
      | str s => simp [okParams] at h
      | obj ofs => simp [okParams] at h

theorem decodeActionField_spec (fs : List (String × Json))
    (h : okActionVal (fs.lookup "Action") = true) :
    ∃ v, decodeActionField fs = Except.ok v ∧ (fs.lookup "Action" = none → v = none) := by
  cases hk : fs.lookup "Action" with
  | none => exact ⟨none, by simp [decodeActionField, hk], fun _ => rfl⟩
  | some j =>
      rw [hk] at h
      cases j with
      | null =>
          refine ⟨none, by simp [decodeActionField, hk], fun hc => ?_⟩
          simp at hc
      | obj afs =>
          simp only [okActionVal, Bool.and_eq_true] at h
          obtain ⟨hn, hp⟩ := h
          obtain ⟨n, hn1, _⟩ := optStrField_spec afs "Name" hn
          obtain ⟨p, hp1⟩ := optParamsField_spec afs hp
          refine ⟨some { name := n, params := p }, ?_, fun hc => ?_⟩
          · simp [decodeActionField, hk, hn1, hp1, exceptBind_ok]
          · simp at hc
      | num n => simp [okActionVal] at h
      | bool b => simp [okActionVal] at h
      | str s => simp [okActionVal] at h
      | arr es => simp [okActionVal] at h

theorem decode_alert_wt (fs : List (String × Json))
    (hw : wellTypedAlert fs = true) :
    exceptIsOk (decode_alert fs) = requiredFieldsPresent fs ∧
    (∀ d, decode_alert fs = Except.ok d →
      (fs.lookup "Line" = none → d.line = none) ∧
      (fs.lookup "Span" = none → d.span = (0, 0)) ∧
      (fs.lookup "Link" = none → d.link = none) ∧
      (fs.lookup "Description" = none → d.description = none) ∧
      (fs.lookup "Match" = none → d.matchText = none) ∧
      (fs.lookup "Action" = none → d.action = none)) := by
  simp only [wellTypedAlert, Bool.and_eq_true] at hw
  obtain ⟨⟨⟨⟨⟨⟨⟨⟨h1, h2⟩, h3⟩, h4⟩, h5⟩, h6⟩, h7⟩, h8⟩, h9⟩ := hw
  obtain ⟨vLine, eLine, dLine⟩ := optIntField_spec fs "Line" h4
  obtain ⟨vSpan, eSpan, dSpan⟩ := spanField_spec fs h5
  obtain ⟨vLink, eLink, dLink⟩ := optStrField_spec fs "Link" h6
  obtain ⟨vDesc, eDesc, dDesc⟩ := optStrField_spec fs "Description" h7
  obtain ⟨vMatch, eMatch, dMatch⟩ := optStrField_spec fs "Match" h8
  obtain ⟨vAct, eAct, dAct⟩ := decodeActionField_spec fs h9
  cases hC : fs.lookup "Check" with
  | none =>
      constructor
      · simp [decode_alert, reqStrField, hC, requiredFieldsPresent, exceptIsOk, exceptBind_error]
      · intro d hd
        simp [decode_alert, reqStrField, hC, exceptBind_error] at hd
  | some jc =>
      rw [hC] at h1
      obtain ⟨sc, rfl⟩ := okReqStr_some h1
      cases hM : fs.lookup "Message" with
      | none =>
          constructor
          · simp [decode_alert, reqStrField, hC, hM, requiredFieldsPresent, exceptIsOk,
              exceptBind_ok, exceptBind_error]
          · intro d hd
            simp [decode_alert, reqStrField, hC, hM, exceptBind_ok, exceptBind_error] at hd
      | some jm =>
          rw [hM] at h2
          obtain ⟨sm, rfl⟩ := okReqStr_some h2
          cases hS : fs.lookup "Severity" with
          | none =>
              constructor
              · simp [decode_alert, reqStrField, hC, hM, hS, requiredFieldsPresent, exceptIsOk,
                  exceptBind_ok, exceptBind_error]
              · intro d hd
                simp [decode_alert, reqStrField, hC, hM, hS, exceptBind_ok, exceptBind_error] at hd
          | some js =>
              rw [hS] at h3
              obtain ⟨ss, rfl⟩ := okReqStr_some h3
              have hok : decode_alert fs = Except.ok
                  { check := sc, message := sm, severity := ss, line := vLine, span := vSpan,
                    link := vLink, description := vDesc, matchText := vMatch, action := vAct } := by
                simp [decode_alert, reqStrField, hC, hM, hS, eLine, eSpan, eLink, eDesc,
                  eMatch, eAct, exceptBind_ok]
              constructor
              · simp [hok, requiredFieldsPresent, hC, hM, hS, exceptIsOk]
              · intro d hd
                rw [hok] at hd
                cases hd
                exact ⟨fun h => dLine h, fun h => dSpan h, fun h => dLink h,
                  fun h => dDesc h, fun h => dMatch h, fun h => dAct h⟩

theorem decodeAlertList_not_ok (l : List Json) (e : Json) (he : e ∈ l)
    (hf : exceptIsOk (decodeAlertJson e) = false) :
    exceptIsOk (decodeAlertList l) = false := by
  induction l with
  | nil => cases he
  | cons x rest ih =>
      cases hx : decodeAlertJson x with
      | error err => simp [decodeAlertList, hx, exceptBind_error, exceptIsOk]
      | ok d =>
          rcases List.mem_cons.mp he with rfl | hmem
          · rw [hx] at hf; simp [exceptIsOk] at hf
          · have htail := ih hmem
            cases ht : decodeAlertList rest with
            | error err => simp [decodeAlertList, hx, ht, exceptBind_ok, exceptBind_error, exceptIsOk]
            | ok ds => rw [ht] at htail; simp [exceptIsOk] at htail

theorem decodeFileObj_not_ok (e : Json) (hf : isPerFileHead e = false) :
    exceptIsOk (decodeFileObj e) = false := by
  cases e with
  | obj fs =>
      simp only [isPerFileHead, Bool.and_eq_false_iff] at hf
      rcases hf with hp | ha
      · have : (fs.lookup "Path").isSome = false := by
          rw [← hasKey_eq_lookup_isSome]; exact hp
        cases hk : fs.lookup "Path" with
        | none => simp [decodeFileObj, hk, exceptIsOk]
        | some p => rw [hk] at this; simp at this
      · have : (fs.lookup "Alerts").isSome = false := by
          rw [← hasKey_eq_lookup_isSome]; exact ha
        cases hk : fs.lookup "Alerts" with
        | none =>
            cases hp : fs.lookup "Path" with
            | none => simp [decodeFileObj, hp, exceptIsOk]
            | some p => simp [decodeFileObj, hp, hk, exceptIsOk]
        | some a => rw [hk] at this; simp at this
  | null => simp [decodeFileObj, exceptIsOk]
  | bool b => simp [decodeFileObj, exceptIsOk]
  | num n => simp [decodeFileObj, exceptIsOk]
  | str s => simp [decodeFileObj, exceptIsOk]
  | arr es => simp [decodeFileObj, exceptIsOk]

theorem perFileGo_not_ok (l : List Json) (e : Json) (he : e ∈ l)
    (hf : exceptIsOk (decodeFileObj e) = false) :
    ∀ acc, exceptIsOk (perFileGo acc l) = false := by
  induction l with
  | nil => cases he
  | cons x rest ih =>
      intro acc
      cases hx : decodeFileObj x with
      | error err => simp [perFileGo, hx, exceptBind_error, exceptIsOk]
      | ok pd =>
          rcases List.mem_cons.mp he with rfl | hmem
          · rw [hx] at hf; simp [exceptIsOk] at hf
          · simp only [perFileGo, hx, exceptBind_ok]
            exact ih hmem _

theorem lookupRoot_filter (m : List (String × IniBody)) :
    (m.filter (fun p => !(p.1 == "top"))).lookup "__root__" = m.lookup "__root__" := by
  induction m with
  | nil => rfl
  | cons p rest ih =>
      obtain ⟨a, b⟩ := p
      by_cases ha : a = "top"
      · subst ha
        have h1 : (("__root__" : String) == "top") = false := by decide
        simp [List.filter_cons, List.lookup, h1, ih]
      · have hne : (a == "top") = false := beq_false_of_ne ha
        cases hr : ("__root__" : String) == a with
        | true => simp [List.filter_cons, hne, List.lookup, hr]
        | false => simp [List.filter_cons, hne, List.lookup, hr, ih]

theorem renderSections_filter (m : List (String × IniBody)) :
    renderSections (m.filter (fun p => !(p.1 == "top"))) = renderSections m := by
  induction m with
  | nil => rfl
  | cons p rest ih =>
      obtain ⟨a, b⟩ := p
      by_cases ha : a = "top"
      · subst ha
        have h2 : (("top" : String) == "__root__") = false := by decide
        simp [List.filter_cons, renderSections, h2, ih]
      · have hne : (a == "top") = false := beq_false_of_ne ha
        by_cases hr : a = "__root__"
        · subst hr
          have h1 : (("__root__" : String) == "__root__") = true := by decide
          simp [List.filter_cons, hne, renderSections, h1, ih]
        · have hnr : (a == "__root__") = false := beq_false_of_ne hr
          cases b with
          | table pairs => simp [List.filter_cons, hne, renderSections, hnr, ih]
          | nonMapping => simp [List.filter_cons, hne, renderSections, hnr]

theorem rootLines_filter (m : List (String × IniBody))
    (h : (m.lookup "__root__").isSome = true) :
    rootLines (m.filter (fun p => !(p.1 == "top"))) = rootLines m := by
  obtain ⟨b, hb⟩ := Option.isSome_iff_exists.mp h
  simp [rootLines, lookupRoot_filter, hb]

/-- C1 counterexample: the line `stylespath = x` is a styles-path directive
under case-insensitive matching, yet `_force_styles_path` does not replace
it in place (its regex has no IGNORECASE flag); instead a new directive is
prepended and the differently-cased line survives verbatim, refuting the
claim's "replaces it in place" for case-insensitive matches. -/
theorem c1_counterexample :
    stylesPathLineMatchesCI "stylespath = x" = true ∧
    stylesPathLineMatchesCI "STYLESPATH = x" = true ∧
    stylesPathLineMatches "stylespath = x" = false ∧
    force_styles_path "stylespath = x" "styles" = "StylesPath = styles\nstylespath = x" ∧
    force_styles_path "stylespath = x" "styles" ≠ "StylesPath = styles" := by
  refine ⟨by decide, by decide, by decide, by decide, by decide⟩

/-- C1 (amended): `_force_styles_path` locates an existing styles-path
directive by a case-SENSITIVE line match (`StylesPath` in exactly that
casing) and replaces every matching line in place; only when no line
matches case-sensitively is a new directive prepended.  The resulting line
list always contains the directive naming the sandbox styles directory,
and every line of the result that matches the directive pattern is exactly
that directive. -/
theorem c1_styles_path_forced : ∀ (lines : List String),
    ("StylesPath = styles") ∈ forceStylesPathLines lines "styles" ∧
    (∀ l, l ∈ forceStylesPathLines lines "styles" → stylesPathLineMatches l = true →
      l = "StylesPath = styles") ∧
    (lines.any stylesPathLineMatches = false →
      forceStylesPathLines lines "styles" = "StylesPath = styles" :: lines) := by
  intro lines
  by_cases h : lines.any stylesPathLineMatches = true
  · have hrw : forceStylesPathLines lines "styles" =
        lines.map (fun l => if stylesPathLineMatches l then "StylesPath = styles" else l) := by
      simp [forceStylesPathLines, h]
    obtain ⟨l0, hl0, hm0⟩ := List.any_eq_true.mp h
    refine ⟨?_, ?_, ?_⟩
    · rw [hrw]
      exact List.mem_map.mpr ⟨l0, hl0, by simp [hm0]⟩
    · intro l hl hm
      rw [hrw] at hl
      obtain ⟨a, _, rfl⟩ := List.mem_map.mp hl
      by_cases hma : stylesPathLineMatches a = true
      · simp [hma]
      · rw [if_neg hma] at hm ⊢
        exact absurd hm hma
    · intro hf
      rw [hf] at h
      cases h
  · have hf : lines.any stylesPathLineMatches = false := by
      simpa using h
    have hrw : forceStylesPathLines lines "styles" = "StylesPath = styles" :: lines := by
      simp [forceStylesPathLines, hf]
    refine ⟨by rw [hrw]; exact List.mem_cons_self _ _, ?_, fun _ => hrw⟩
    intro l hl hm
    rw [hrw] at hl
    rcases List.mem_cons.mp hl with rfl | hmem
    · rfl
    · have : lines.any stylesPathLineMatches = true := List.any_eq_true.mpr ⟨l, hmem, hm⟩
      rw [hf] at this
      cases this

/-- C1 witness: instantiating the amended statement on the lowercase
directive input used by the counterexample. -/
theorem c1_witness :
    ("StylesPath = styles") ∈ forceStylesPathLines ["stylespath = x"] "styles" ∧
    forceStylesPathLines ["stylespath = x"] "styles" =
      "StylesPath = styles" :: ["stylespath = x"] :=
  ⟨(c1_styles_path_forced ["stylespath = x"]).1,
   (c1_styles_path_forced ["stylespath = x"]).2.2 (by decide)⟩

/-- C2 counterexample: the parsed value `[1]` is none of the three
documented shapes (not an object, its first element is not a per-file
object, and it is not an array of alert objects), yet `_decode_vale_json`
raises a decode error on it instead of returning an empty mapping. -/
theorem c2_counterexample :
    decode_vale_json (Json.arr [Json.num 1]) = Except.error DecodeError.notAnObject := by
  decide

/-- C2 (amended): only parsed JSON values that are neither objects nor
arrays (null, booleans, numbers, strings) are guaranteed to decode to an
empty mapping without raising; objects and arrays are dispatched by their
top-level structure and may raise when their contents are not valid alert
collections.  The empty object also decodes to an empty mapping. -/
theorem c2_unrecognized_empty :
    (∀ v, isScalarJson v = true → decode_vale_json v = Except.ok []) ∧
    decode_vale_json (Json.obj []) = Except.ok [] := by
  constructor
  · intro v hv
    cases v with
    | null => rfl
    | bool b => rfl
    | num n => rfl
    | str s => rfl
    | arr es => simp [isScalarJson] at hv
    | obj fs => simp [isScalarJson] at hv
  · rfl

/-- C2 witness: the scalar `null` decodes to the empty mapping. -/
theorem c2_witness : decode_vale_json Json.null = Except.ok [] :=
  c2_unrecognized_empty.1 Json.null (by decide)

/-- C3 counterexample: an alert carrying all three required fields, with
`Check` bound to the number `3`, still fails to decode (msgspec validates
types strictly), refuting the "fails if and only if a required field is
absent" direction of the claim. -/
theorem c3_counterexample :
    requiredFieldsPresent
      [("Check", Json.num 3), ("Message", Json.str "m"), ("Severity", Json.str "w")] = true ∧
    exceptIsOk (decode_alert
      [("Check", Json.num 3), ("Message", Json.str "m"), ("Severity", Json.str "w")]) = false := by
  refine ⟨by decide, by decide⟩

/-- C3 (amended): restricted to alert objects whose present fields carry
values of their declared types, decoding fails exactly when one of the
required fields `Check`, `Message`, `Severity` is absent; an alert with a
missing required field is never silently dropped from a surrounding alert
list (the whole list decode fails); and on success each absent optional
field takes its stated default: `Line` none, `Span` `(0, 0)`, `Link`,
`Description`, `Match` and `Action` none. -/
theorem c3_alert_decode (fs : List (String × Json)) (hw : wellTypedAlert fs = true) :
    (exceptIsOk (decode_alert fs) = requiredFieldsPresent fs) ∧
    (∀ d, decode_alert fs = Except.ok d →
      (fs.lookup "Line" = none → d.line = none) ∧
      (fs.lookup "Span" = none → d.span = (0, 0)) ∧
      (fs.lookup "Link" = none → d.link = none) ∧
      (fs.lookup "Description" = none → d.description = none) ∧
      (fs.lookup "Match" = none → d.matchText = none) ∧
      (fs.lookup "Action" = none → d.action = none)) ∧
    (requiredFieldsPresent fs = false → ∀ pre post,
      exceptIsOk (decodeAlertList (pre ++ Json.obj fs :: post)) = false) := by
  obtain ⟨h1, h2⟩ := decode_alert_wt fs hw
  refine ⟨h1, h2, ?_⟩
  intro hreq pre post
  refine decodeAlertList_not_ok _ (Json.obj fs) (by simp) ?_
  show exceptIsOk (decode_alert fs) = false
  rw [h1, hreq]

/-- C3 witness: a minimal well-typed alert with exactly the required
fields decodes successfully. -/
theorem c3_witness :
    exceptIsOk (decode_alert
      [("Check", Json.str "c"), ("Message", Json.str "m"), ("Severity", Json.str "w")]) =
    requiredFieldsPresent
      [("Check", Json.str "c"), ("Message", Json.str "m"), ("Severity", Json.str "w")] :=
  (c3_alert_decode _ (by decide)).1

/-- C4 counterexample: when the binary cannot be resolved, the recorded
step trace is creation of the temporary sandbox directory, THEN binary
resolution, then removal — the directory is created on disk before binary
resolution (harness.py line 369 precedes line 374), refuting "no sandbox
directory is created prior to binary resolution". -/
theorem c4_counterexample :
    (valedateInit envNoBinary).events =
      [InitEvent.createTmpDir, InitEvent.resolveBinary, InitEvent.removeTmpDir] ∧
    (valedateInit envNoBinary).result = Except.error InitError.valeBinaryNotFound := by
  refine ⟨by decide, by decide⟩

/-- C4 (amended): when the external binary cannot be resolved, the
constructor propagates the BinaryNotFound error; the sandbox temporary
directory has already been created at that point, but the scoped exit
stack removes it before the error reaches the caller, so no disk state
remains and no ownership is transferred. -/
theorem c4_binary_not_found (env : InitEnv) (h : env.binaryFound = false) :
    (valedateInit env).result = Except.error InitError.valeBinaryNotFound ∧
    (valedateInit env).events =
      [InitEvent.createTmpDir, InitEvent.resolveBinary, InitEvent.removeTmpDir] ∧
    (valedateInit env).sandboxDirExists = false ∧
    (valedateInit env).harnessOwnsTmp = false := by
  simp [valedateInit, h, failInit]

/-- C4 witness: instantiating the amended statement at a concrete
environment whose binary lookup fails. -/
theorem c4_witness :
    (valedateInit envNoBinarySync).sandboxDirExists = false :=
  (c4_binary_not_found _ (by decide)).2.2.1

/-- C5: in every construction environment, the harness owns the temporary
directory exactly when construction succeeded, the sandbox directory
survives exactly when construction succeeded, every failing construction
ran the removal step and never the ownership transfer, and every
successful construction transferred ownership and never ran removal. -/
theorem c5_atomic_construction (env : InitEnv) :
    ((valedateInit env).harnessOwnsTmp = exceptIsOk (valedateInit env).result) ∧
    ((valedateInit env).sandboxDirExists = exceptIsOk (valedateInit env).result) ∧
    (exceptIsOk (valedateInit env).result = false →
      InitEvent.removeTmpDir ∈ (valedateInit env).events ∧
      InitEvent.transferOwnership ∉ (valedateInit env).events) ∧
    (exceptIsOk (valedateInit env).result = true →
      InitEvent.removeTmpDir ∉ (valedateInit env).events ∧
      InitEvent.transferOwnership ∈ (valedateInit env).events) := by
  obtain ⟨b1, b2, b3, b4, b5, b6, b7, b8⟩ := env
  cases b1 <;> cases b2 <;> cases b3 <;> cases b4 <;> cases b5 <;> cases b6 <;>
    cases b7 <;> cases b8 <;> decide

/-- C5 witness: a failing construction (styles materialization fails) ran
the removal step, and a fully successful construction transferred
ownership. -/
theorem c5_witness :
    InitEvent.removeTmpDir ∈ (valedateInit envStylesFail).events ∧
    InitEvent.transferOwnership ∈ (valedateInit envAllOk).events :=
  ⟨((c5_atomic_construction _).2.2.1 (by decide)).1,
   ((c5_atomic_construction _).2.2.2 (by decide)).2⟩

/-- C6: `_run` raises `ValeExecutionError` carrying the exit code and the
decoded stderr text exactly when the exit code is at or above the runtime
failure threshold 2; every exit code below 2 (including 0, 1 and negative
signal codes) returns the decoded stdout text without raising. -/
theorem c6_run_exit_semantics (p : ProcResult) :
    (p.returncode ≥ VALE_RUNTIME_FAILURE_EXIT →
      valedate_run p = Except.error (RunError.valeExecutionError p.returncode p.stderrText)) ∧
    (p.returncode < VALE_RUNTIME_FAILURE_EXIT → valedate_run p = Except.ok p.stdoutText) ∧
    ((∃ e, valedate_run p = Except.error e) ↔ p.returncode ≥ VALE_RUNTIME_FAILURE_EXIT) := by
  refine ⟨fun h => by simp [valedate_run, h], fun h => by simp [valedate_run, not_le.mpr h], ?_, ?_⟩
  · rintro ⟨e, he⟩
    by_contra hlt
    simp [valedate_run, hlt] at he
  · intro h
    exact ⟨RunError.valeExecutionError p.returncode p.stderrText, by simp [valedate_run, h]⟩

/-- C6 witness: exit code 2 raises with the code and stderr; exit codes 1
and 0 return stdout. -/
theorem c6_witness :
    valedate_run ⟨2, "o", "e"⟩ = Except.error (RunError.valeExecutionError 2 "e") ∧
    valedate_run ⟨1, "o", "e"⟩ = Except.ok "o" ∧
    valedate_run ⟨0, "o", "e"⟩ = Except.ok "o" :=
  ⟨(c6_run_exit_semantics _).1 (by decide),
   (c6_run_exit_semantics _).2.1 (by decide),
   (c6_run_exit_semantics _).2.1 (by decide)⟩

/-- C7: from the owned post-construction state, the first cleanup call
removes the sandbox tree; a second cleanup call (in particular the scoped
exit running after an explicit call) is a no-op on any state produced by a
cleanup call, performing no removal and raising nothing (the model's
cleanup is a total function). -/
theorem c7_cleanup_idempotent :
    (harness_cleanup freshHarnessTmp).2 = true ∧
    ((harness_cleanup freshHarnessTmp).1).dirExists = false ∧
    (∀ s : TmpDirState, harness_cleanup (harness_cleanup s).1 = ((harness_cleanup s).1, false)) ∧
    (∀ s : TmpDirState, harness_exit (harness_cleanup s).1 = ((harness_cleanup s).1, false)) := by
  refine ⟨rfl, rfl, ?_, ?_⟩
  · intro s
    obtain ⟨f, d⟩ := s
    cases f <;> cases d <;> decide
  · intro s
    obtain ⟨f, d⟩ := s
    cases f <;> cases d <;> decide

/-- C8: when the mapping contains `"__root__"`, removing every `"top"`
entry does not change the rendered canonical text at all: only the
`"__root__"` entry is rendered as the unsectioned root block, and the
`"top"` entry's contents appear nowhere (neither as root nor as a
bracketed section) and cause no error. -/
theorem c8_top_ignored (m : List (String × IniBody))
    (h : (m.lookup "__root__").isSome = true) :
    render_mapping_ini m = render_mapping_ini (m.filter (fun p => !(p.1 == "top"))) := by
  have h2 := renderSections_filter m
  have h3 := rootLines_filter m h
  simp [render_mapping_ini, h2, h3]

/-- C8 witness: a mapping with both root aliases renders identically to
the mapping with its `"top"` entry removed. -/
theorem c8_witness :
    render_mapping_ini
      [("__root__", IniBody.table [("A", IniValue.prim "1")]),
       ("top", IniBody.table [("B", IniValue.prim "2")])] =
    render_mapping_ini [("__root__", IniBody.table [("A", IniValue.prim "1")])] :=
  (c8_top_ignored
      [("__root__", IniBody.table [("A", IniValue.prim "1")]),
       ("top", IniBody.table [("B", IniValue.prim "2")])] (by decide)).trans (by rfl)

/-- C9: decoding the empty JSON array yields exactly the one-entry mapping
from the synthetic stdin key to the empty diagnostic list (not the empty
mapping); consequently the `lint` pipeline returns the empty sequence on
that output while the `lint_path` pipeline returns the one-entry
mapping. -/
theorem c9_empty_array :
    decode_vale_json (Json.arr []) = Except.ok [("<stdin>", [])] ∧
    decode_vale_json (Json.arr []) ≠ Except.ok [] ∧
    lintFromOutput (Json.arr []) = Except.ok [] ∧
    lintPathFromOutput (Json.arr []) = Except.ok [("<stdin>", [])] := by
  refine ⟨by decide, by decide, by decide, by decide⟩

/-- C10: shape dispatch inspects only the first array element: when the
first element is an object containing both `"Path"` and `"Alerts"`, the
whole array is decoded element-by-element as per-file objects — so any
element lacking those keys (or not an object) makes the decode fail — and
when the first element is not such an object, the whole array is decoded
as a bare alert array under the synthetic stdin key, whatever the later
elements are. -/
theorem c10_dispatch (first : Json) (rest : List Json) :
    (isPerFileHead first = true →
      decode_vale_json (Json.arr (first :: rest)) = perFileGo [] (first :: rest) ∧
      (∀ e, e ∈ first :: rest → isPerFileHead e = false →
        exceptIsOk (decode_vale_json (Json.arr (first :: rest))) = false)) ∧
    (isPerFileHead first = false →
      decode_vale_json (Json.arr (first :: rest)) = stdinDecode (first :: rest)) := by
  constructor
  · intro hpf
    have hd : decode_vale_json (Json.arr (first :: rest)) = perFileGo [] (first :: rest) := by
      simp [decode_vale_json, hpf]
    refine ⟨hd, ?_⟩
    intro e he hef
    rw [hd]
    exact perFileGo_not_ok (first :: rest) e he (decodeFileObj_not_ok e hef) []
  · intro hpf
    simp [decode_vale_json, hpf]

/-- C10 witness: a per-file array whose second element is the number 7
fails to decode, and an array headed by a non-per-file element decodes via
the stdin branch. -/
theorem c10_witness :
    exceptIsOk (decode_vale_json (Json.arr
      [Json.obj [("Path", Json.str "a.md"), ("Alerts", Json.arr [])], Json.num 7])) = false ∧
    decode_vale_json (Json.arr [Json.num 7]) = stdinDecode [Json.num 7] :=
  ⟨((c10_dispatch (Json.obj [("Path", Json.str "a.md"), ("Alerts", Json.arr [])])
        [Json.num 7]).1 (by decide)).2 (Json.num 7)
      (List.mem_cons_of_mem _ (List.mem_singleton.mpr rfl)) (by decide),
   (c10_dispatch (Json.num 7) []).2 (by decide)⟩

end Valedate
